import Mathlib

/-!
Verification of the dual-barrier trading engine core
(`trading-engine.ts`, `deriv-api.ts`, `risk-calculator` module).

The TypeScript source is shallowly embedded: JS numbers are modelled as
exact rationals (`ℚ`), fallible operations return `Except`/`Option`, and
the event-driven parts (auto-trading loop, request correlation,
reconnection) are modelled as explicit step functions over small state
types, with the environment's choices (timer firings, message arrivals,
leg outcomes) supplied as event data.
-/

namespace TradingCore

/-! ## Data model (types/trading.ts) -/

inductive TradeType where
  | higher
  | lower
deriving DecidableEq, Repr

inductive TradeStatus where
  | pending
  | won
  | lost
  | active
deriving DecidableEq, Repr

structure Trade where
  id : String
  timestamp : ℕ
  type : TradeType
  stake : ℚ
  barrier : ℚ
  market : String
  status : TradeStatus
  payout : Option ℚ := none
  profit : Option ℚ := none
  contractId : Option String := none
deriving DecidableEq, Repr

inductive PairStatus where
  | pending
  | completed
  | active
deriving DecidableEq, Repr

structure TradePair where
  id : String
  timestamp : ℕ
  higherTrade : Trade
  lowerTrade : Trade
  totalStake : ℚ
  totalProfit : Option ℚ := none
  status : PairStatus
deriving DecidableEq, Repr

structure AccountInfo where
  balance : ℚ
  currency : String
  loginId : String
  availableBalance : ℚ
  lockedBalance : ℚ
deriving DecidableEq, Repr

structure MarketData where
  symbol : String
  name : String
  pip : ℚ
  currentPrice : ℚ
  minBarrier : ℚ
  maxBarrier : ℚ
  minStake : ℚ
  maxStake : ℚ
deriving DecidableEq, Repr

structure TradingState where
  isConnected : Bool
  isTrading : Bool
  accountInfo : Option AccountInfo
  currentMarket : Option MarketData
  tradeHistory : List TradePair
  totalProfit : ℚ
  totalLoss : ℚ
  consecutiveLosses : ℕ
deriving DecidableEq, Repr

structure TradeConfig where
  stake : ℚ
  martingaleMultiplier : ℚ
  duration : ℕ
  positiveBarrier : ℚ
  negativeBarrier : ℚ
  selectedMarket : String
  riskPercentage : ℚ
  lockedBalance : ℚ
deriving DecidableEq, Repr

structure RiskCalculation where
  recommendedStake : ℚ
  maxRisk : ℚ
  availableBalance : ℚ
  riskPercentage : ℚ
  canTrade : Bool
deriving DecidableEq, Repr

/-! ## Risk Sizing Module (RiskCalculator) -/

/-- `RiskCalculator.calculateMartingaleStake`: base stake when no losses,
otherwise `min(base * multiplier^losses, base * maxMultiplier)` with the
default cap `maxMultiplier = 10`. -/
def calculateMartingaleStake (baseStake : ℚ) (consecutiveLosses : ℕ) (multiplier : ℚ)
    (maxMultiplier : ℚ := 10) : ℚ :=
  if consecutiveLosses = 0 then baseStake
  else min (baseStake * multiplier ^ consecutiveLosses) (baseStake * maxMultiplier)

/-- Loop body of `RiskCalculator.calculateMartingaleSequenceRisk`: `fuel`
iterations remain, `cur` is `currentStake`, `acc` is `totalRisk`; the loop
breaks early once `currentStake` exceeds `baseStake * 32`. -/
def martingaleSequenceRiskGo (baseStake multiplier : ℚ) : ℕ → ℚ → ℚ → ℚ
  | 0, _, acc => acc
  | fuel + 1, cur, acc =>
    let acc' := acc + cur
    let cur' := cur * multiplier
    if cur' > baseStake * 32 then acc'
    else martingaleSequenceRiskGo baseStake multiplier fuel cur' acc'

/-- `RiskCalculator.calculateMartingaleSequenceRisk`: sum of the geometric
martingale stake series over `maxLevels + 1` terms (loop `i = 0..maxLevels`),
stopping early once a term exceeds 32x the base term. -/
def calculateMartingaleSequenceRisk (baseStake multiplier : ℚ) (maxLevels : ℕ) : ℚ :=
  martingaleSequenceRiskGo baseStake multiplier (maxLevels + 1) baseStake 0

/-- JS `parseFloat(x.toFixed(2))` on a non-negative value, modelled as exact
decimal rounding to two places (round half up). -/
def toFixed2 (x : ℚ) : ℚ :=
  (round (x * 100) : ℚ) / 100

/-- `RiskCalculator.calculateRecommendedStake`. -/
def calculateRecommendedStake (accountInfo : AccountInfo) (riskPercentage : ℚ)
    (martingaleMultiplier : ℚ := 2) : RiskCalculation :=
  let availableBalance := accountInfo.availableBalance
  let riskAmount := availableBalance * riskPercentage / 100
  let martingaleSequenceRisk := calculateMartingaleSequenceRisk 1 martingaleMultiplier 5
  let recommendedStake := riskAmount / (martingaleSequenceRisk * 2)
  let minStake : ℚ := 35 / 100
  let maxStake := min 2000 (availableBalance / 4)
  let finalStake := max minStake (min maxStake recommendedStake)
  { recommendedStake := toFixed2 finalStake
    maxRisk := riskAmount
    availableBalance := availableBalance
    riskPercentage := riskPercentage
    canTrade := decide (availableBalance ≥ finalStake * 2) }

structure BarrierValidation where
  isValid : Bool
  errors : List String
deriving DecidableEq, Repr

def msgPositiveNotPositive : String := "Positive barrier must be greater than 0"

def msgNegativeNotNegative : String := "Negative barrier must be less than 0"

def msgPositiveBelowMin (minBarrier : ℚ) : String :=
  "Positive barrier must be at least " ++ toString minBarrier

def msgPositiveAboveMax (maxBarrier : ℚ) : String :=
  "Positive barrier cannot exceed " ++ toString maxBarrier

def msgNegativeBelowMin (minBarrier : ℚ) : String :=
  "Negative barrier magnitude must be at least " ++ toString minBarrier

def msgNegativeAboveMax (maxBarrier : ℚ) : String :=
  "Negative barrier magnitude cannot exceed " ++ toString maxBarrier

/-- `RiskCalculator.validateBarriers`: accumulates one error message per
violated constraint, in source order; `isValid` is `errors.length === 0`. -/
def validateBarriers (positiveBarrier negativeBarrier minBarrier maxBarrier : ℚ) :
    BarrierValidation :=
  let errors : List String := []
  let errors := if positiveBarrier ≤ 0 then errors ++ [msgPositiveNotPositive] else errors
  let errors := if negativeBarrier ≥ 0 then errors ++ [msgNegativeNotNegative] else errors
  let absPositive := |positiveBarrier|
  let absNegative := |negativeBarrier|
  let errors := if absPositive < minBarrier then errors ++ [msgPositiveBelowMin minBarrier] else errors
  let errors := if absPositive > maxBarrier then errors ++ [msgPositiveAboveMax maxBarrier] else errors
  let errors := if absNegative < minBarrier then errors ++ [msgNegativeBelowMin minBarrier] else errors
  let errors := if absNegative > maxBarrier then errors ++ [msgNegativeAboveMax maxBarrier] else errors
  { isValid := errors.length = 0
    errors := errors }

/-! ## Theorems about the Risk Sizing Module -/

/-- C5: `calculateMartingaleStake(base, n, m)` equals `base` when `n = 0` and
`min(base * m^n, base * 10)` otherwise (default cap 10). -/
theorem martingaleStake_closed_form (baseStake multiplier : ℚ) (consecutiveLosses : ℕ) :
    calculateMartingaleStake baseStake consecutiveLosses multiplier =
      if consecutiveLosses = 0 then baseStake
      else min (baseStake * multiplier ^ consecutiveLosses) (baseStake * 10) := rfl

/-- C4 counterexample: with base 1 > 0 and multiplier 1/2, the martingale
stake strictly decreases from n = 0 to n = 1, refuting monotonicity in `n`
for arbitrary multipliers. -/
theorem martingaleStake_not_monotone_for_small_multiplier :
    (0 : ℚ) < 1 ∧
      calculateMartingaleStake 1 1 (1 / 2) < calculateMartingaleStake 1 0 (1 / 2) := by
  constructor
  · norm_num
  · norm_num [calculateMartingaleStake, min_def]

/-- C4 amended: for base > 0, the martingale stake never exceeds `10 * base`
for any multiplier, and is non-decreasing in the loss count whenever the
multiplier is at least 1. -/
theorem martingaleStake_monotone_and_capped (baseStake multiplier : ℚ) (n : ℕ)
    (hbase : 0 < baseStake) :
    (1 ≤ multiplier →
      calculateMartingaleStake baseStake n multiplier ≤
        calculateMartingaleStake baseStake (n + 1) multiplier) ∧
    calculateMartingaleStake baseStake n multiplier ≤ 10 * baseStake := by
  have hz : calculateMartingaleStake baseStake 0 multiplier = baseStake := by
    simp [calculateMartingaleStake]
  have hs : ∀ j : ℕ, calculateMartingaleStake baseStake (j + 1) multiplier =
      min (baseStake * multiplier ^ (j + 1)) (baseStake * 10) := by
    intro j
    simp [calculateMartingaleStake]
  constructor
  · intro hm
    cases n with
    | zero =>
      rw [hz, hs 0, pow_one]
      refine le_min ?_ ?_ <;> nlinarith
    | succ k =>
      rw [hs k, hs (k + 1)]
      refine min_le_min ?_ le_rfl
      refine mul_le_mul_of_nonneg_left ?_ hbase.le
      exact pow_le_pow_right₀ hm (Nat.le_succ (k + 1))
  · cases n with
    | zero =>
      rw [hz]
      nlinarith
    | succ k =>
      rw [hs k]
      calc min (baseStake * multiplier ^ (k + 1)) (baseStake * 10) ≤ baseStake * 10 :=
            min_le_right _ _
        _ = 10 * baseStake := by ring

/-- C4 witness: theorem instantiated at base 1, multiplier 2, n = 3. -/
theorem martingaleStake_monotone_and_capped_witness :
    calculateMartingaleStake 1 3 2 ≤ calculateMartingaleStake 1 4 2 ∧
      calculateMartingaleStake 1 3 2 ≤ 10 * 1 :=
  ⟨(martingaleStake_monotone_and_capped 1 2 3 (by norm_num)).1 (by norm_num),
   (martingaleStake_monotone_and_capped 1 2 3 (by norm_num)).2⟩

/-- C6: `validateBarriers` is valid exactly when the positive barrier is
positive, the negative barrier is negative, and both magnitudes lie in
`[min, max]`; `isValid` is true exactly when the error list is empty; and
the error list holds exactly one entry per violated constraint. -/
theorem validateBarriers_correct (p n lo hi : ℚ) :
    ((validateBarriers p n lo hi).isValid = true ↔
      (0 < p ∧ n < 0 ∧ lo ≤ |p| ∧ |p| ≤ hi ∧ lo ≤ |n| ∧ |n| ≤ hi)) ∧
    ((validateBarriers p n lo hi).isValid = true ↔
      (validateBarriers p n lo hi).errors = []) ∧
    (validateBarriers p n lo hi).errors =
      (if p ≤ 0 then [msgPositiveNotPositive] else []) ++
      (if 0 ≤ n then [msgNegativeNotNegative] else []) ++
      (if |p| < lo then [msgPositiveBelowMin lo] else []) ++
      (if hi < |p| then [msgPositiveAboveMax hi] else []) ++
      (if |n| < lo then [msgNegativeBelowMin lo] else []) ++
      (if hi < |n| then [msgNegativeAboveMax hi] else []) := by
  have herr : (validateBarriers p n lo hi).errors =
      (if p ≤ 0 then [msgPositiveNotPositive] else []) ++
      (if 0 ≤ n then [msgNegativeNotNegative] else []) ++
      (if |p| < lo then [msgPositiveBelowMin lo] else []) ++
      (if hi < |p| then [msgPositiveAboveMax hi] else []) ++
      (if |n| < lo then [msgNegativeBelowMin lo] else []) ++
      (if hi < |n| then [msgNegativeAboveMax hi] else []) := by
    by_cases h1 : p ≤ 0 <;> by_cases h2 : (0 : ℚ) ≤ n <;> by_cases h3 : |p| < lo <;>
      by_cases h4 : hi < |p| <;> by_cases h5 : |n| < lo <;> by_cases h6 : hi < |n| <;>
      simp [validateBarriers, h1, h2, h3, h4, h5, h6]
  have hlen : (validateBarriers p n lo hi).isValid = true ↔
      (validateBarriers p n lo hi).errors = [] := by
    by_cases h1 : p ≤ 0 <;> by_cases h2 : (0 : ℚ) ≤ n <;> by_cases h3 : |p| < lo <;>
      by_cases h4 : hi < |p| <;> by_cases h5 : |n| < lo <;> by_cases h6 : hi < |n| <;>
      simp [validateBarriers, h1, h2, h3, h4, h5, h6]
  refine ⟨?_, hlen, herr⟩
  rw [hlen, herr]
  simp only [List.append_eq_nil, ite_eq_right_iff, List.cons_ne_nil, imp_false, not_le,
    not_lt]
  tauto

/-! ## Theorems about calculateRecommendedStake (C3) -/

theorem toFixed2_mono {x y : ℚ} (h : x ≤ y) : toFixed2 x ≤ toFixed2 y := by
  unfold toFixed2
  have hr : round (x * 100) ≤ round (y * 100) := by
    rw [round_eq, round_eq]
    exact Int.floor_le_floor (by linarith)
  have hc : ((round (x * 100) : ℤ) : ℚ) ≤ ((round (y * 100) : ℤ) : ℚ) := by
    exact_mod_cast hr
  linarith

theorem toFixed2_le (x : ℚ) : toFixed2 x ≤ x + 1 / 200 := by
  unfold toFixed2
  have h := round_le_add_half (x * 100)
  linarith

theorem toFixed2_thirtyfive : toFixed2 (35 / 100) = 35 / 100 := by
  have h : (35 / 100 : ℚ) * 100 = ((35 : ℤ) : ℚ) := by norm_num
  rw [toFixed2, h, round_intCast]
  norm_num

/-- C3 counterexample: with an available balance of 0 (risk 10%, multiplier 2)
the returned `recommendedStake` is 0.35, which is strictly greater than
`min(2000, available/4) = 0`, so the claimed interval
`[0.35, min(2000, available/4)]` does not contain it. -/
theorem recommendedStake_outside_claimed_interval :
    (0 : ℚ) ≤ 0 ∧
      ¬ ((calculateRecommendedStake ⟨0, "USD", "id0", 0, 0⟩ 10 2).recommendedStake ≤
          min 2000 ((0 : ℚ) / 4)) := by
  refine ⟨le_refl 0, ?_⟩
  have hstake : (calculateRecommendedStake ⟨0, "USD", "id0", 0, 0⟩ 10 2).recommendedStake =
      35 / 100 := by
    show toFixed2 (max (35 / 100)
      (min (min 2000 ((0 : ℚ) / 4))
        ((0 : ℚ) * 10 / 100 / (calculateMartingaleSequenceRisk 1 2 5 * 2)))) = 35 / 100
    norm_num [calculateMartingaleSequenceRisk, martingaleSequenceRiskGo]
    rw [show (7 / 20 : ℚ) = 35 / 100 by norm_num]
    exact toFixed2_thirtyfive
  rw [hstake]
  norm_num

/-- C3 amended: for every account with non-negative available balance, the
returned `recommendedStake` lies in
`[0.35, max(0.35, min(2000, available/4)) + 1/200]` (the lower clamp takes
precedence when `available/4 < 0.35`, and the final two-decimal rounding can
exceed the cap by strictly less than half a cent), and `canTrade` is true
iff `available ≥ 2 × recommendedStake`. -/
theorem recommendedStake_bounds (accountInfo : AccountInfo) (riskPercentage multiplier : ℚ)
    (ha : 0 ≤ accountInfo.availableBalance) :
    (35 / 100 ≤ (calculateRecommendedStake accountInfo riskPercentage multiplier).recommendedStake ∧
      (calculateRecommendedStake accountInfo riskPercentage multiplier).recommendedStake ≤
        max (35 / 100) (min 2000 (accountInfo.availableBalance / 4)) + 1 / 200) ∧
    ((calculateRecommendedStake accountInfo riskPercentage multiplier).canTrade = true ↔
      accountInfo.availableBalance ≥
        2 * (calculateRecommendedStake accountInfo riskPercentage multiplier).recommendedStake) := by
  set a := accountInfo.availableBalance with ha_def
  set rec := a * riskPercentage / 100 / (calculateMartingaleSequenceRisk 1 multiplier 5 * 2)
    with hrec_def
  set M := min (2000 : ℚ) (a / 4) with hM_def
  set F := max (35 / 100) (min M rec) with hF_def
  have hstake : (calculateRecommendedStake accountInfo riskPercentage multiplier).recommendedStake =
      toFixed2 F := rfl
  have hcan : (calculateRecommendedStake accountInfo riskPercentage multiplier).canTrade =
      decide (a ≥ F * 2) := rfl
  have hF1 : 35 / 100 ≤ F := le_max_left _ _
  have hF2 : F ≤ max (35 / 100) M := max_le_max le_rfl (min_le_left _ _)
  have hlow : 35 / 100 ≤ toFixed2 F := by
    calc (35 / 100 : ℚ) = toFixed2 (35 / 100) := toFixed2_thirtyfive.symm
      _ ≤ toFixed2 F := toFixed2_mono hF1
  have hhigh : toFixed2 F ≤ max (35 / 100) M + 1 / 200 := by
    calc toFixed2 F ≤ F + 1 / 200 := toFixed2_le F
      _ ≤ max (35 / 100) M + 1 / 200 := by linarith
  refine ⟨⟨by rw [hstake]; exact hlow, by rw [hstake]; exact hhigh⟩, ?_⟩
  rw [hstake, hcan]
  rw [decide_eq_true_iff]
  rcases le_or_lt (7 / 5 : ℚ) a with h14 | h14
  · have hM35 : 35 / 100 ≤ M := by
      rw [hM_def]
      refine le_min (by norm_num) (by linarith)
    have hFM : F ≤ M := by
      calc F ≤ max (35 / 100) M := hF2
        _ = M := max_eq_right hM35
    have hMa : M ≤ a / 4 := min_le_right _ _
    have htf : toFixed2 F ≤ F + 1 / 200 := toFixed2_le F
    constructor
    · intro _
      linarith
    · intro _
      linarith
  · have hM : M < 35 / 100 := by
      have : a / 4 < 35 / 100 := by linarith
      calc M ≤ a / 4 := min_le_right _ _
        _ < 35 / 100 := this
    have hFeq : F = 35 / 100 := by
      rw [hF_def]
      refine max_eq_left ?_
      calc min M rec ≤ M := min_le_left _ _
        _ ≤ 35 / 100 := hM.le
    rw [hFeq, toFixed2_thirtyfive]
    constructor
    · intro h
      linarith
    · intro h
      linarith

/-- C3 amended witness: the theorem instantiated at available balance 100,
risk 50%, multiplier 2. -/
theorem recommendedStake_bounds_witness :
    (35 / 100 ≤ (calculateRecommendedStake ⟨100, "USD", "id1", 100, 0⟩ 50 2).recommendedStake ∧
      (calculateRecommendedStake ⟨100, "USD", "id1", 100, 0⟩ 50 2).recommendedStake ≤
        max (35 / 100) (min 2000 ((100 : ℚ) / 4)) + 1 / 200) ∧
    ((calculateRecommendedStake ⟨100, "USD", "id1", 100, 0⟩ 50 2).canTrade = true ↔
      (100 : ℚ) ≥ 2 * (calculateRecommendedStake ⟨100, "USD", "id1", 100, 0⟩ 50 2).recommendedStake) :=
  recommendedStake_bounds ⟨100, "USD", "id1", 100, 0⟩ 50 2 (by norm_num)

/-! ## Trade Orchestration Engine: settlement (TradingEngine.updateTradeResult) -/

/-- The engine-level accumulators mutated by `updateTradeResult`
(`tradingState.totalProfit`, `tradingState.totalLoss`,
`tradingState.consecutiveLosses`). -/
structure Totals where
  totalProfit : ℚ
  totalLoss : ℚ
  consecutiveLosses : ℕ
deriving DecidableEq, Repr

/-- One leg-update step of `updateTradeResult`: if the leg's contract id
matches, record the profit and the terminal status; the Bool is the
`tradeUpdated` contribution. -/
def settleLeg (t : Trade) (cid : String) (profit : ℚ) (won : Bool) : Trade × Bool :=
  if t.contractId = some cid then
    ({ t with
        profit := some profit
        status := if won then TradeStatus.won else TradeStatus.lost }, true)
  else (t, false)

/-- Both leg-update steps of `updateTradeResult` for one pair; the Bool is
`tradeUpdated` (either leg matched). -/
def settlePair (pair : TradePair) (cid : String) (profit : ℚ) (won : Bool) :
    TradePair × Bool :=
  let h := settleLeg pair.higherTrade cid profit won
  let l := settleLeg pair.lowerTrade cid profit won
  ({ pair with higherTrade := h.1, lowerTrade := l.1 }, h.2 || l.2)

/-- The pair updated by `settlePair` (first component). -/
def settledPair (pair : TradePair) (cid : String) (profit : ℚ) (won : Bool) : TradePair :=
  (settlePair pair cid profit won).1

/-- `(pair.higherTrade.profit || 0) + (pair.lowerTrade.profit || 0)`. -/
def combinedProfit (pair : TradePair) : ℚ :=
  pair.higherTrade.profit.getD 0 + pair.lowerTrade.profit.getD 0

/-- The `bothCompleted` block of `updateTradeResult`: when both legs are
non-active, mark the pair completed, set its `totalProfit` to the sum of the
legs' profits, and update the engine accumulators (strictly positive
combined profit adds to cumulative profit and resets the loss counter;
otherwise the magnitude adds to cumulative loss and the counter
increments). -/
def completePair (pair : TradePair) (t : Totals) : TradePair × Totals :=
  if pair.higherTrade.status ≠ TradeStatus.active ∧
      pair.lowerTrade.status ≠ TradeStatus.active then
    let pairTotal := combinedProfit pair
    let pair' := { pair with
      status := PairStatus.completed
      totalProfit := some pairTotal }
    if 0 < pairTotal then
      (pair', { t with
        totalProfit := t.totalProfit + pairTotal
        consecutiveLosses := 0 })
    else
      (pair', { t with
        totalLoss := t.totalLoss + |pairTotal|
        consecutiveLosses := t.consecutiveLosses + 1 })
  else (pair, t)

/-- The history scan of `updateTradeResult`: find the first pair either of
whose legs carries the contract id, update it (and, if both legs are then
terminal, complete it), and stop — later pairs are not visited. -/
def updateHistory : List TradePair → String → ℚ → Bool → Totals → List TradePair × Totals
  | [], _, _, _, t => ([], t)
  | pair :: rest, cid, profit, won, t =>
    let sp := settlePair pair cid profit won
    if sp.2 then
      let c := completePair sp.1 t
      (c.1 :: rest, c.2)
    else
      let r := updateHistory rest cid profit won t
      (pair :: r.1, r.2)

/-- `TradingEngine.updateTradeResult(contractId, profit, won)`. -/
def updateTradeResult (s : TradingState) (contractId : String) (profit : ℚ) (won : Bool) :
    TradingState :=
  let r := updateHistory s.tradeHistory contractId profit won
      ⟨s.totalProfit, s.totalLoss, s.consecutiveLosses⟩
  { s with
    tradeHistory := r.1
    totalProfit := r.2.totalProfit
    totalLoss := r.2.totalLoss
    consecutiveLosses := r.2.consecutiveLosses }

/-! ## Trade Orchestration Engine: pair execution (TradingEngine.executeTradePair) -/

/-- `TradingEngine.calculateStakeWithMartingale`. -/
def calculateStakeWithMartingale (s : TradingState) (config : TradeConfig) : ℚ :=
  let stake := config.stake
  let stake := if 0 < s.consecutiveLosses then
      config.stake * config.martingaleMultiplier ^ s.consecutiveLosses
    else stake
  min stake (config.stake * 10)

/-- `TradingEngine.calculateBarriers`: clamp both magnitudes into the
market's barrier range, negating the lower one. -/
def calculateBarriers (s : TradingState) (positiveBarrier negativeBarrier : ℚ) : ℚ × ℚ :=
  match s.currentMarket with
  | none => (positiveBarrier, -|negativeBarrier|)
  | some market =>
    (max market.minBarrier (min market.maxBarrier |positiveBarrier|),
      -(max market.minBarrier (min market.maxBarrier |negativeBarrier|)))

/-- Outcome of one leg's price-then-buy sequence (`executeSingleTrade`):
the venue's contract id and payout. -/
structure BuyResult where
  contractId : String
  payout : ℚ
deriving DecidableEq, Repr

/-- `TradingEngine.executeTradePair`. Each leg's price-then-buy outcome is
supplied by the environment as an `Except`; the pair is prepended to the
trade history only when both legs succeed, and any leg failure leaves the
state untouched and re-raises the error. -/
def executeTradePair (s : TradingState) (config : TradeConfig) (now : ℕ)
    (higherResult lowerResult : Except String BuyResult) :
    TradingState × Except String TradePair :=
  match s.currentMarket, s.accountInfo with
  | none, _ => (s, Except.error "Market or account info not available")
  | some _, none => (s, Except.error "Market or account info not available")
  | some _, some _ =>
    let tradePairId := "pair_" ++ toString now
    let actualStake := calculateStakeWithMartingale s config
    let barriers := calculateBarriers s config.positiveBarrier config.negativeBarrier
    let higherTrade : Trade :=
      { id := tradePairId ++ "_higher"
        timestamp := now
        type := TradeType.higher
        stake := actualStake
        barrier := barriers.1
        market := config.selectedMarket
        status := TradeStatus.pending }
    let lowerTrade : Trade :=
      { id := tradePairId ++ "_lower"
        timestamp := now
        type := TradeType.lower
        stake := actualStake
        barrier := barriers.2
        market := config.selectedMarket
        status := TradeStatus.pending }
    match higherResult, lowerResult with
    | Except.ok hr, Except.ok lr =>
      let higherTrade := { higherTrade with
        contractId := some hr.contractId
        payout := some hr.payout
        status := TradeStatus.active }
      let lowerTrade := { lowerTrade with
        contractId := some lr.contractId
        payout := some lr.payout
        status := TradeStatus.active }
      let tradePair : TradePair :=
        { id := tradePairId
          timestamp := now
          higherTrade := higherTrade
          lowerTrade := lowerTrade
          totalStake := actualStake * 2
          status := PairStatus.active }
      ({ s with tradeHistory := tradePair :: s.tradeHistory }, Except.ok tradePair)
    | Except.error e, _ => (s, Except.error e)
    | Except.ok _, Except.error e => (s, Except.error e)

/-! ## Settlement lemmas (C1, C2) -/

theorem settleLeg_no_match {t : Trade} {cid : String} {profit : ℚ} {won : Bool}
    (h : t.contractId ≠ some cid) : settleLeg t cid profit won = (t, false) := by
  unfold settleLeg
  rw [if_neg h]

theorem settlePair_no_match {q : TradePair} {cid : String} {profit : ℚ} {won : Bool}
    (h1 : q.higherTrade.contractId ≠ some cid) (h2 : q.lowerTrade.contractId ≠ some cid) :
    settlePair q cid profit won = (q, false) := by
  simp [settlePair, settleLeg, h1, h2]

theorem settlePair_matched {pair : TradePair} {cid : String} {profit : ℚ} {won : Bool}
    (h : pair.higherTrade.contractId = some cid ∨ pair.lowerTrade.contractId = some cid) :
    (settlePair pair cid profit won).2 = true := by
  rcases h with h | h
  · simp [settlePair, settleLeg, h]
  · by_cases h1 : pair.higherTrade.contractId = some cid <;>
      simp [settlePair, settleLeg, h1, h]

theorem settledPair_status (pair : TradePair) (cid : String) (profit : ℚ) (won : Bool) :
    (settledPair pair cid profit won).status = pair.status := rfl

theorem settledPair_totalProfit (pair : TradePair) (cid : String) (profit : ℚ) (won : Bool) :
    (settledPair pair cid profit won).totalProfit = pair.totalProfit := rfl

theorem updateHistory_append (before rest : List TradePair) (cid : String) (profit : ℚ)
    (won : Bool) (t : Totals)
    (hb : ∀ q ∈ before, q.higherTrade.contractId ≠ some cid ∧
        q.lowerTrade.contractId ≠ some cid) :
    updateHistory (before ++ rest) cid profit won t =
      (before ++ (updateHistory rest cid profit won t).1,
        (updateHistory rest cid profit won t).2) := by
  induction before with
  | nil => simp
  | cons q qs ih =>
    have hq := hb q (by simp)
    have hqs : ∀ q' ∈ qs, q'.higherTrade.contractId ≠ some cid ∧
        q'.lowerTrade.contractId ≠ some cid := fun q' hq' => hb q' (by simp [hq'])
    simp only [List.cons_append, updateHistory, settlePair_no_match hq.1 hq.2]
    simp [ih hqs]

theorem updateHistory_first_match (after : List TradePair) (pair : TradePair) (cid : String)
    (profit : ℚ) (won : Bool) (t : Totals)
    (hmatch : pair.higherTrade.contractId = some cid ∨
        pair.lowerTrade.contractId = some cid) :
    updateHistory (pair :: after) cid profit won t =
      ((completePair (settledPair pair cid profit won) t).1 :: after,
        (completePair (settledPair pair cid profit won) t).2) := by
  simp only [updateHistory, settlePair_matched hmatch]
  simp [settledPair]

/-- C1 counterexample data: a pair whose higher leg is already settled with
profit 5 and whose lower leg (contract id "c2") is still active. -/
def pairC1 : TradePair :=
  { id := "pair_1"
    timestamp := 0
    higherTrade :=
      { id := "pair_1_higher"
        timestamp := 0
        type := TradeType.higher
        stake := 1
        barrier := 1
        market := "R_10"
        status := TradeStatus.won
        payout := some 2
        profit := some 5
        contractId := some "c1" }
    lowerTrade :=
      { id := "pair_1_lower"
        timestamp := 0
        type := TradeType.lower
        stake := 1
        barrier := -1
        market := "R_10"
        status := TradeStatus.active
        payout := some 2
        profit := none
        contractId := some "c2" }
    totalStake := 2
    status := PairStatus.active }

def stateC1 : TradingState :=
  { isConnected := true
    isTrading := false
    accountInfo := none
    currentMarket := none
    tradeHistory := [pairC1]
    totalProfit := 0
    totalLoss := 0
    consecutiveLosses := 0 }

/-- C1 counterexample: settling the lower leg of `pairC1` with profit -5
makes both legs terminal with combined profit 0 (non-negative), yet the code
takes the loss branch: `consecutiveLosses` becomes 1 instead of being reset
to 0, and nothing is added to cumulative profit. -/
theorem updateTradeResult_zero_profit_counts_as_loss :
    combinedProfit (settledPair pairC1 "c2" (-5) false) = 0 ∧
      (updateTradeResult stateC1 "c2" (-5) false).consecutiveLosses = 1 ∧
      (updateTradeResult stateC1 "c2" (-5) false).totalProfit = 0 := by
  have hne : ("c1" : String) ≠ "c2" := by decide
  have hws : TradeStatus.won ≠ TradeStatus.active := by decide
  have hls : TradeStatus.lost ≠ TradeStatus.active := by decide
  refine ⟨?_, ?_, ?_⟩ <;>
    norm_num [updateTradeResult, updateHistory, settlePair, settledPair, settleLeg,
      completePair, combinedProfit, stateC1, pairC1, hne, hws, hls]

/-- C1 amended: an `updateTradeResult` call that makes both legs of the
first matching pair terminal updates the accumulators as follows: a strictly
positive combined profit resets `consecutiveLosses` to 0 and adds the
combined profit to cumulative profit; a non-positive combined profit
increments `consecutiveLosses` by exactly one and adds the magnitude to
cumulative loss. -/
theorem updateTradeResult_settles_accumulators
    (s : TradingState) (cid : String) (profit : ℚ) (won : Bool)
    (before after : List TradePair) (pair : TradePair)
    (hsplit : s.tradeHistory = before ++ pair :: after)
    (hb : ∀ q ∈ before, q.higherTrade.contractId ≠ some cid ∧
        q.lowerTrade.contractId ≠ some cid)
    (hmatch : pair.higherTrade.contractId = some cid ∨
        pair.lowerTrade.contractId = some cid)
    (hterm : (settledPair pair cid profit won).higherTrade.status ≠ TradeStatus.active ∧
        (settledPair pair cid profit won).lowerTrade.status ≠ TradeStatus.active) :
    (0 < combinedProfit (settledPair pair cid profit won) →
      (updateTradeResult s cid profit won).consecutiveLosses = 0 ∧
        (updateTradeResult s cid profit won).totalProfit =
          s.totalProfit + combinedProfit (settledPair pair cid profit won) ∧
        (updateTradeResult s cid profit won).totalLoss = s.totalLoss) ∧
    (combinedProfit (settledPair pair cid profit won) ≤ 0 →
      (updateTradeResult s cid profit won).consecutiveLosses = s.consecutiveLosses + 1 ∧
        (updateTradeResult s cid profit won).totalLoss =
          s.totalLoss + |combinedProfit (settledPair pair cid profit won)| ∧
        (updateTradeResult s cid profit won).totalProfit = s.totalProfit) := by
  have hkey : updateHistory s.tradeHistory cid profit won
      ⟨s.totalProfit, s.totalLoss, s.consecutiveLosses⟩ =
      (before ++ (completePair (settledPair pair cid profit won)
          ⟨s.totalProfit, s.totalLoss, s.consecutiveLosses⟩).1 :: after,
        (completePair (settledPair pair cid profit won)
          ⟨s.totalProfit, s.totalLoss, s.consecutiveLosses⟩).2) := by
    rw [hsplit, updateHistory_append before (pair :: after) cid profit won _ hb,
      updateHistory_first_match after pair cid profit won _ hmatch]
  constructor
  · intro hpos
    have hcomp : completePair (settledPair pair cid profit won)
        ⟨s.totalProfit, s.totalLoss, s.consecutiveLosses⟩ =
        ({ settledPair pair cid profit won with
            status := PairStatus.completed
            totalProfit := some (combinedProfit (settledPair pair cid profit won)) },
          ⟨s.totalProfit + combinedProfit (settledPair pair cid profit won),
            s.totalLoss, 0⟩) := by
      unfold completePair
      rw [if_pos hterm, if_pos hpos]
    simp [updateTradeResult, hkey, hcomp]
  · intro hnp
    have hcomp : completePair (settledPair pair cid profit won)
        ⟨s.totalProfit, s.totalLoss, s.consecutiveLosses⟩ =
        ({ settledPair pair cid profit won with
            status := PairStatus.completed
            totalProfit := some (combinedProfit (settledPair pair cid profit won)) },
          ⟨s.totalProfit,
            s.totalLoss + |combinedProfit (settledPair pair cid profit won)|,
            s.consecutiveLosses + 1⟩) := by
      unfold completePair
      rw [if_pos hterm, if_neg (not_lt.mpr hnp)]
    simp [updateTradeResult, hkey, hcomp]

/-- C1 amended witness data: like `pairC1` but the pending settlement
(contract id "x2") wins 2, for a combined profit of 7. -/
def pairW1 : TradePair :=
  { pairC1 with
    higherTrade := { pairC1.higherTrade with contractId := some "x1" }
    lowerTrade := { pairC1.lowerTrade with contractId := some "x2" } }

def stateW1 : TradingState :=
  { stateC1 with tradeHistory := [pairW1], consecutiveLosses := 2 }

/-- C1 amended witness: the theorem instantiated on `stateW1`, settling
contract "x2" with profit 2. -/
theorem updateTradeResult_settles_accumulators_witness :
    (0 < combinedProfit (settledPair pairW1 "x2" 2 true) →
      (updateTradeResult stateW1 "x2" 2 true).consecutiveLosses = 0 ∧
        (updateTradeResult stateW1 "x2" 2 true).totalProfit =
          stateW1.totalProfit + combinedProfit (settledPair pairW1 "x2" 2 true) ∧
        (updateTradeResult stateW1 "x2" 2 true).totalLoss = stateW1.totalLoss) ∧
    (combinedProfit (settledPair pairW1 "x2" 2 true) ≤ 0 →
      (updateTradeResult stateW1 "x2" 2 true).consecutiveLosses =
        stateW1.consecutiveLosses + 1 ∧
        (updateTradeResult stateW1 "x2" 2 true).totalLoss =
          stateW1.totalLoss + |combinedProfit (settledPair pairW1 "x2" 2 true)| ∧
        (updateTradeResult stateW1 "x2" 2 true).totalProfit = stateW1.totalProfit) :=
  updateTradeResult_settles_accumulators stateW1 "x2" 2 true [] [] pairW1 rfl
    (by simp) (Or.inr rfl)
    (by
      have hne : ("x1" : String) ≠ "x2" := by decide
      constructor <;> simp [settledPair, settlePair, settleLeg, pairW1, pairC1, hne])

/-- C2 amended: the pair found by `updateTradeResult` is marked `completed`
with `totalProfit` equal to the sum of both legs' profit exactly when both
legs are non-active after the leg update; otherwise its status and
`totalProfit` are untouched. (The "exactly once" part of the original claim
fails: see the duplicate-settlement counterexample.) -/
theorem updateTradeResult_completion
    (s : TradingState) (cid : String) (profit : ℚ) (won : Bool)
    (before after : List TradePair) (pair : TradePair)
    (hsplit : s.tradeHistory = before ++ pair :: after)
    (hb : ∀ q ∈ before, q.higherTrade.contractId ≠ some cid ∧
        q.lowerTrade.contractId ≠ some cid)
    (hmatch : pair.higherTrade.contractId = some cid ∨
        pair.lowerTrade.contractId = some cid) :
    ∃ pairFinal,
      (updateTradeResult s cid profit won).tradeHistory = before ++ pairFinal :: after ∧
      ((settledPair pair cid profit won).higherTrade.status ≠ TradeStatus.active ∧
          (settledPair pair cid profit won).lowerTrade.status ≠ TradeStatus.active →
        pairFinal.status = PairStatus.completed ∧
          pairFinal.totalProfit = some (combinedProfit (settledPair pair cid profit won))) ∧
      (¬((settledPair pair cid profit won).higherTrade.status ≠ TradeStatus.active ∧
          (settledPair pair cid profit won).lowerTrade.status ≠ TradeStatus.active) →
        pairFinal.status = pair.status ∧ pairFinal.totalProfit = pair.totalProfit) := by
  have hkey : updateHistory s.tradeHistory cid profit won
      ⟨s.totalProfit, s.totalLoss, s.consecutiveLosses⟩ =
      (before ++ (completePair (settledPair pair cid profit won)
          ⟨s.totalProfit, s.totalLoss, s.consecutiveLosses⟩).1 :: after,
        (completePair (settledPair pair cid profit won)
          ⟨s.totalProfit, s.totalLoss, s.consecutiveLosses⟩).2) := by
    rw [hsplit, updateHistory_append before (pair :: after) cid profit won _ hb,
      updateHistory_first_match after pair cid profit won _ hmatch]
  refine ⟨(completePair (settledPair pair cid profit won)
      ⟨s.totalProfit, s.totalLoss, s.consecutiveLosses⟩).1, ?_, ?_, ?_⟩
  · simp [updateTradeResult, hkey]
  · intro hterm
    unfold completePair
    rw [if_pos hterm]
    dsimp only
    split_ifs <;> exact ⟨rfl, rfl⟩
  · intro hnterm
    unfold completePair
    rw [if_neg hnterm]
    exact ⟨settledPair_status pair cid profit won, settledPair_totalProfit pair cid profit won⟩

/-- C2 amended witness: the completion theorem instantiated on `stateW1`,
settling contract "x2" with profit 2. -/
theorem updateTradeResult_completion_witness :
    ∃ pairFinal,
      (updateTradeResult stateW1 "x2" 2 true).tradeHistory = [] ++ pairFinal :: [] ∧
      ((settledPair pairW1 "x2" 2 true).higherTrade.status ≠ TradeStatus.active ∧
          (settledPair pairW1 "x2" 2 true).lowerTrade.status ≠ TradeStatus.active →
        pairFinal.status = PairStatus.completed ∧
          pairFinal.totalProfit = some (combinedProfit (settledPair pairW1 "x2" 2 true))) ∧
      (¬((settledPair pairW1 "x2" 2 true).higherTrade.status ≠ TradeStatus.active ∧
          (settledPair pairW1 "x2" 2 true).lowerTrade.status ≠ TradeStatus.active) →
        pairFinal.status = pairW1.status ∧ pairFinal.totalProfit = pairW1.totalProfit) :=
  updateTradeResult_completion stateW1 "x2" 2 true [] [] pairW1 rfl (by simp) (Or.inr rfl)

/-- C2 counterexample data: a pair that already completed with combined
profit 2 (legs won 5 / lost 3); the engine accumulator already holds that
profit. -/
def pairC2 : TradePair :=
  { pairC1 with
    lowerTrade := { pairC1.lowerTrade with
      status := TradeStatus.lost
      profit := some (-3) }
    totalProfit := some 2
    status := PairStatus.completed }

def stateC2 : TradingState :=
  { stateC1 with tradeHistory := [pairC2], totalProfit := 2 }

/-- C2 counterexample: re-delivering the settlement of the already-terminal
lower leg (contract "c2", profit -3, lost — the same data as before) re-runs
the completion block and adds the pair's combined profit to the accumulator
again: engine `totalProfit` goes from 2 to 4, refuting "a duplicate
settlement call for an already-terminal leg does not change ... the
accumulators ... again". -/
theorem updateTradeResult_duplicate_settlement_changes_accumulators :
    stateC2.totalProfit = 2 ∧
      pairC2.higherTrade.status ≠ TradeStatus.active ∧
      pairC2.lowerTrade.status ≠ TradeStatus.active ∧
      pairC2.status = PairStatus.completed ∧
      (updateTradeResult stateC2 "c2" (-3) false).totalProfit = 4 := by
  have hne : ("c1" : String) ≠ "c2" := by decide
  have hws : TradeStatus.won ≠ TradeStatus.active := by decide
  have hls : TradeStatus.lost ≠ TradeStatus.active := by decide
  refine ⟨rfl, by decide, by decide, rfl, ?_⟩
  norm_num [updateTradeResult, updateHistory, settlePair, settledPair, settleLeg,
    completePair, combinedProfit, stateC2, stateC1, pairC2, pairC1, hne, hws, hls]

/-! ## Theorems about executeTradePair (C7) -/

/-- C7: `executeTradePair` is atomic on failure — if either leg's
price-then-buy outcome is an error, the call returns that error and the
trading state (history and accumulators included) is exactly the input
state. -/
theorem executeTradePair_atomic_on_failure (s : TradingState) (config : TradeConfig)
    (now : ℕ) (higherResult lowerResult : Except String BuyResult)
    (hfail : (∃ e, higherResult = Except.error e) ∨ (∃ e, lowerResult = Except.error e)) :
    (executeTradePair s config now higherResult lowerResult).1 = s ∧
      ∃ e, (executeTradePair s config now higherResult lowerResult).2 =
        Except.error e := by
  rcases hfail with ⟨e, he⟩ | ⟨e, he⟩ <;> subst he
  · cases hcm : s.currentMarket <;> cases hai : s.accountInfo <;> cases lowerResult <;>
      simp [executeTradePair, hcm, hai]
  · cases hcm : s.currentMarket <;> cases hai : s.accountInfo <;> cases higherResult <;>
      simp [executeTradePair, hcm, hai]

/-- C7 witness data: a ready state (market and account present). -/
def sampleMarket : MarketData :=
  { symbol := "R_10"
    name := "Volatility 10 Index"
    pip := 1 / 100
    currentPrice := 100
    minBarrier := 1 / 10
    maxBarrier := 10
    minStake := 35 / 100
    maxStake := 2000 }

def sampleAccount : AccountInfo :=
  { balance := 1000
    currency := "USD"
    loginId := "CR1"
    availableBalance := 1000
    lockedBalance := 0 }

def sampleConfig : TradeConfig :=
  { stake := 1
    martingaleMultiplier := 2
    duration := 60
    positiveBarrier := 1
    negativeBarrier := 1
    selectedMarket := "R_10"
    riskPercentage := 5
    lockedBalance := 0 }

def sampleState : TradingState :=
  { isConnected := true
    isTrading := false
    accountInfo := some sampleAccount
    currentMarket := some sampleMarket
    tradeHistory := []
    totalProfit := 0
    totalLoss := 0
    consecutiveLosses := 0 }

/-- C7 witness: the atomicity theorem instantiated with a failing higher leg
and a succeeding lower leg on a ready state. -/
theorem executeTradePair_atomic_on_failure_witness :
    (executeTradePair sampleState sampleConfig 0 (Except.error "buy failed")
        (Except.ok ⟨"123", 2⟩)).1 = sampleState ∧
      ∃ e, (executeTradePair sampleState sampleConfig 0 (Except.error "buy failed")
        (Except.ok ⟨"123", 2⟩)).2 = Except.error e :=
  executeTradePair_atomic_on_failure sampleState sampleConfig 0
    (Except.error "buy failed") (Except.ok ⟨"123", 2⟩) (Or.inl ⟨"buy failed", rfl⟩)

/-! ## Auto-trading loop (startAutoTrading / stopAutoTrading, C8)

The loop is event-driven: `executeNextTrade` runs when invoked directly by
`startAutoTrading` or when the wait timer fires; a completed
`executeTradePair` schedules the next timer; `stopAutoTrading` clears the
trading flag and any pending timer. The model records, per event, whether a
trade-pair submission was started (the loop body passed its `isTrading`
guard and affordability check and invoked `executeTradePair`). -/

structure LoopState where
  isTrading : Bool
  timerPending : Bool
  inflight : Bool
deriving DecidableEq, Repr

inductive LoopEvent where
  | start (canExec : Bool)
  | timerFire (canExec : Bool)
  | stop
  | completeOk
  | completeErr
deriving DecidableEq, Repr

/-- Body of `executeNextTrade`: return immediately unless `isTrading`; stop
auto-trading if the affordability check fails; otherwise begin a trade-pair
submission. The Bool records whether a submission began. -/
def executeNextTradeStep (s : LoopState) (canExec : Bool) : LoopState × Bool :=
  if s.isTrading then
    if canExec then ({ s with inflight := true }, true)
    else ({ s with isTrading := false, timerPending := false }, false)
  else (s, false)

/-- One event of the auto-trading loop.
`start`: `startAutoTrading` — throws `AlreadyTrading` when already trading,
otherwise sets the flag and invokes `executeNextTrade` synchronously.
`timerFire`: a pending wait timer fires and invokes `executeNextTrade`.
`stop`: `stopAutoTrading` — clears the flag and any pending timer.
`completeOk`: an in-flight `executeTradePair` resolves; the loop schedules
the next-iteration timer unconditionally.
`completeErr`: an in-flight `executeTradePair` rejects; the catch block
calls `stopAutoTrading`. -/
def loopStep (s : LoopState) (e : LoopEvent) : LoopState × Bool :=
  match e with
  | LoopEvent.start canExec =>
    if s.isTrading then (s, false)
    else executeNextTradeStep { s with isTrading := true } canExec
  | LoopEvent.timerFire canExec =>
    if s.timerPending then executeNextTradeStep { s with timerPending := false } canExec
    else (s, false)
  | LoopEvent.stop => ({ s with isTrading := false, timerPending := false }, false)
  | LoopEvent.completeOk =>
    if s.inflight then ({ s with inflight := false, timerPending := true }, false)
    else (s, false)
  | LoopEvent.completeErr =>
    if s.inflight then
      ({ s with inflight := false, isTrading := false, timerPending := false }, false)
    else (s, false)

/-- Run a sequence of loop events, counting trade-pair submissions. -/
def runLoop : LoopState → List LoopEvent → LoopState × ℕ
  | s, [] => (s, 0)
  | s, e :: es =>
    let r := loopStep s e
    let rest := runLoop r.1 es
    (rest.1, (if r.2 then 1 else 0) + rest.2)

theorem loopStep_of_not_trading (s : LoopState) (e : LoopEvent)
    (h : s.isTrading = false) (hstart : ∀ c, e ≠ LoopEvent.start c) :
    (loopStep s e).1.isTrading = false ∧ (loopStep s e).2 = false := by
  cases e with
  | start c => exact absurd rfl (hstart c)
  | timerFire c =>
    by_cases ht : s.timerPending = true <;>
      simp [loopStep, executeNextTradeStep, h, ht]
  | stop => simp [loopStep]
  | completeOk =>
    by_cases hf : s.inflight = true <;> simp [loopStep, h, hf]
  | completeErr =>
    by_cases hf : s.inflight = true <;> simp [loopStep, h, hf]

theorem runLoop_of_not_trading (events : List LoopEvent) (s : LoopState)
    (h : s.isTrading = false)
    (hnostart : ∀ c, LoopEvent.start c ∉ events) :
    (runLoop s events).2 = 0 := by
  induction events generalizing s with
  | nil => rfl
  | cons e es ih =>
    have hse : ∀ c, e ≠ LoopEvent.start c := by
      intro c hc
      exact hnostart c (by simp [hc])
    have hstep := loopStep_of_not_trading s e h hse
    have hes : ∀ c, LoopEvent.start c ∉ es := by
      intro c hc
      exact hnostart c (by simp [hc])
    simp [runLoop, hstep.2, ih (loopStep s e).1 hstep.1 hes]

/-- C8: after `stopAutoTrading` runs, no further trade-pair submission is
started by any sequence of timer firings and completions that contains no
new `startAutoTrading` call — even if a wait timer was pending at the stop
or a trade execution was in flight (an in-flight completion re-arms the
timer, but the fired timer finds the trading flag cleared and returns before
submitting). -/
theorem stopAutoTrading_no_further_submissions (s : LoopState)
    (events : List LoopEvent)
    (hnostart : ∀ c, LoopEvent.start c ∉ events) :
    (runLoop (loopStep s LoopEvent.stop).1 events).2 = 0 :=
  runLoop_of_not_trading events (loopStep s LoopEvent.stop).1 rfl hnostart

/-- C8 witness: stop while trading with a pending timer and an in-flight
execution; the completion re-arms the timer and the timer fires twice, yet
no submission occurs. -/
theorem stopAutoTrading_no_further_submissions_witness :
    (runLoop (loopStep ⟨true, true, true⟩ LoopEvent.stop).1
      [LoopEvent.completeOk, LoopEvent.timerFire true, LoopEvent.timerFire true]).2 = 0 :=
  stopAutoTrading_no_further_submissions ⟨true, true, true⟩
    [LoopEvent.completeOk, LoopEvent.timerFire true, LoopEvent.timerFire true]
    (by decide)

/-! ## Protocol client: request correlation and timeout (DerivAPI.send /
DerivAPI.handleMessage, C9) -/

/-- Pending-correlation state of `DerivAPI`: the next `requestId` and the
keys of the `callbacks` map, plus the registered subscription channel
kinds. -/
structure ApiState where
  requestId : ℕ
  callbacks : List ℕ
  subscriptions : List String
deriving DecidableEq, Repr

/-- An incoming wire message: its `msg_type` discriminator and optional
`req_id` correlation field. -/
structure ApiMessage where
  msgType : String
  reqId : Option ℕ
deriving DecidableEq, Repr

/-- Where `handleMessage` delivered a message. -/
inductive Dispatch where
  | subscription (kind : String)
  | completion (reqId : ℕ)
  | dropped
deriving DecidableEq, Repr

/-- The request-timeout bound of `DerivAPI.send` (30000 ms). -/
def requestTimeoutMs : ℕ := 30000

/-- `DerivAPI.send`: assign the next correlation id, record the pending
completion under it and bump the counter. -/
def sendReq (s : ApiState) : ℕ × ApiState :=
  (s.requestId,
    { s with requestId := s.requestId + 1, callbacks := s.callbacks ++ [s.requestId] })

/-- `DerivAPI.handleMessage`: subscription pushes are classified by
`msg_type` first; otherwise a message carrying a registered `req_id` is
dispatched to its pending completion, which is removed; anything else is
ignored. -/
def handleMessage (s : ApiState) (msg : ApiMessage) : ApiState × Dispatch :=
  if msg.msgType = "tick" ∧ "tick" ∈ s.subscriptions then
    (s, Dispatch.subscription "tick")
  else if msg.msgType = "balance" ∧ "balance" ∈ s.subscriptions then
    (s, Dispatch.subscription "balance")
  else if msg.msgType = "portfolio" ∧ "portfolio" ∈ s.subscriptions then
    (s, Dispatch.subscription "portfolio")
  else
    match msg.reqId with
    | some rid =>
      if rid ∈ s.callbacks then
        ({ s with callbacks := s.callbacks.erase rid }, Dispatch.completion rid)
      else (s, Dispatch.dropped)
    | none => (s, Dispatch.dropped)

/-- The 30s timeout handler registered by `send`: if the correlation entry
is still pending, remove it and reject with "Request timeout"; otherwise do
nothing. -/
def requestTimeoutFire (s : ApiState) (reqId : ℕ) : ApiState × Option String :=
  if reqId ∈ s.callbacks then
    ({ s with callbacks := s.callbacks.erase reqId }, some "Request timeout")
  else (s, none)

/-- Process a sequence of incoming messages. -/
def processMessages : ApiState → List ApiMessage → ApiState
  | s, [] => s
  | s, m :: ms => processMessages (handleMessage s m).1 ms

theorem handleMessage_mem_callbacks {s : ApiState} {m : ApiMessage} {rid : ℕ}
    (h : m.reqId ≠ some rid) (hm : rid ∈ s.callbacks) :
    rid ∈ (handleMessage s m).1.callbacks := by
  unfold handleMessage
  split_ifs <;> try exact hm
  cases hrid : m.reqId with
  | none => exact hm
  | some rid2 =>
    have hne : rid ≠ rid2 := fun hh => h (by rw [hrid, hh])
    by_cases hmem : rid2 ∈ s.callbacks
    · simp only [hmem, if_pos]
      exact (List.mem_erase_of_ne hne).mpr hm
    · simp only [hmem, if_neg]
      exact hm

theorem handleMessage_count_le (s : ApiState) (m : ApiMessage) (rid : ℕ) :
    (handleMessage s m).1.callbacks.count rid ≤ s.callbacks.count rid := by
  unfold handleMessage
  split_ifs <;> try exact le_rfl
  cases m.reqId with
  | none => exact le_rfl
  | some rid2 =>
    by_cases hmem : rid2 ∈ s.callbacks
    · simp only [hmem, if_pos]
      rw [List.count_erase]
      exact Nat.sub_le _ _
    · simp only [hmem, if_neg]
      exact le_rfl

theorem processMessages_mem_callbacks (msgs : List ApiMessage) (s : ApiState) (rid : ℕ)
    (h : ∀ m ∈ msgs, m.reqId ≠ some rid) (hm : rid ∈ s.callbacks) :
    rid ∈ (processMessages s msgs).callbacks := by
  induction msgs generalizing s with
  | nil => exact hm
  | cons m ms ih =>
    exact ih (handleMessage s m).1
      (fun m' hm' => h m' (by simp [hm']))
      (handleMessage_mem_callbacks (h m (by simp)) hm)

theorem processMessages_count_le (msgs : List ApiMessage) (s : ApiState) (rid : ℕ) :
    (processMessages s msgs).callbacks.count rid ≤ s.callbacks.count rid := by
  induction msgs generalizing s with
  | nil => exact le_rfl
  | cons m ms ih =>
    exact le_trans (ih (handleMessage s m).1) (handleMessage_count_le s m rid)

/-- C9: a `call` whose correlation id receives no reply fails at the 30s
timeout with "Request timeout" and its pending entry is removed, after which
a late reply carrying the same id is dispatched to no completion. The
hypothesis that every pending id is below the counter is the `send`
invariant (ids are assigned from a monotonically increasing counter). -/
theorem request_timeout_removes_pending (s : ApiState) (msgs : List ApiMessage)
    (hb : ∀ i ∈ s.callbacks, i < s.requestId)
    (hmsgs : ∀ m ∈ msgs, m.reqId ≠ some (sendReq s).1) :
    (requestTimeoutFire (processMessages (sendReq s).2 msgs) (sendReq s).1).2 =
        some "Request timeout" ∧
      (sendReq s).1 ∉
        (requestTimeoutFire (processMessages (sendReq s).2 msgs) (sendReq s).1).1.callbacks ∧
      (∀ m : ApiMessage,
        (handleMessage
          (requestTimeoutFire (processMessages (sendReq s).2 msgs) (sendReq s).1).1 m).2 ≠
          Dispatch.completion (sendReq s).1) ∧
      requestTimeoutMs = 30000 := by
  have hself : s.requestId ∉ s.callbacks := fun hmem => lt_irrefl _ (hb _ hmem)
  have hmem1 : (sendReq s).1 ∈ (sendReq s).2.callbacks := by
    simp [sendReq]
  have hcnt1 : (sendReq s).2.callbacks.count (sendReq s).1 = 1 := by
    simp [sendReq, List.count_append, List.count_eq_zero.mpr hself]
  have hmem2 : (sendReq s).1 ∈ (processMessages (sendReq s).2 msgs).callbacks :=
    processMessages_mem_callbacks msgs (sendReq s).2 (sendReq s).1 hmsgs hmem1
  have hcnt2 : (processMessages (sendReq s).2 msgs).callbacks.count (sendReq s).1 ≤ 1 :=
    hcnt1 ▸ processMessages_count_le msgs (sendReq s).2 (sendReq s).1
  have htf : requestTimeoutFire (processMessages (sendReq s).2 msgs) (sendReq s).1 =
      ({ processMessages (sendReq s).2 msgs with
          callbacks := (processMessages (sendReq s).2 msgs).callbacks.erase (sendReq s).1 },
        some "Request timeout") := by
    unfold requestTimeoutFire
    rw [if_pos hmem2]
  have hgone : (sendReq s).1 ∉
      (requestTimeoutFire (processMessages (sendReq s).2 msgs) (sendReq s).1).1.callbacks := by
    rw [htf]
    intro hmem
    have hc := List.count_pos_iff.mpr hmem
    rw [List.count_erase_self] at hc
    omega
  refine ⟨by rw [htf], hgone, ?_, rfl⟩
  intro m
  unfold handleMessage
  split_ifs <;> try simp
  cases m.reqId with
  | none => simp
  | some rid2 =>
    by_cases hmem : rid2 ∈
        (requestTimeoutFire (processMessages (sendReq s).2 msgs) (sendReq s).1).1.callbacks
    · simp only [hmem, if_pos]
      intro hc
      rw [Dispatch.completion.injEq] at hc
      exact hgone (hc ▸ hmem)
    · simp only [hmem, if_neg]
      simp

/-- C9 witness: a fresh client issues a call (id 1); a tick push and an
unrelated reply (id 2) arrive, then the timeout fires and a late reply with
id 1 is ignored. -/
theorem request_timeout_removes_pending_witness :
    (requestTimeoutFire (processMessages (sendReq ⟨1, [], ["tick"]⟩).2
        [⟨"tick", none⟩, ⟨"proposal", some 2⟩]) (sendReq ⟨1, [], ["tick"]⟩).1).2 =
      some "Request timeout" ∧
      (sendReq (⟨1, [], ["tick"]⟩ : ApiState)).1 ∉
        (requestTimeoutFire (processMessages (sendReq ⟨1, [], ["tick"]⟩).2
          [⟨"tick", none⟩, ⟨"proposal", some 2⟩]) (sendReq ⟨1, [], ["tick"]⟩).1).1.callbacks ∧
      (∀ m : ApiMessage,
        (handleMessage (requestTimeoutFire (processMessages (sendReq ⟨1, [], ["tick"]⟩).2
          [⟨"tick", none⟩, ⟨"proposal", some 2⟩]) (sendReq ⟨1, [], ["tick"]⟩).1).1 m).2 ≠
          Dispatch.completion (sendReq ⟨1, [], ["tick"]⟩).1) ∧
      requestTimeoutMs = 30000 :=
  request_timeout_removes_pending ⟨1, [], ["tick"]⟩
    [⟨"tick", none⟩, ⟨"proposal", some 2⟩] (by simp) (by decide)

/-! ## Protocol client: reconnection backoff (DerivAPI.handleReconnection /
DerivAPI.connect, C10) -/

/-- `maxReconnectAttempts` of `DerivAPI`. -/
def maxReconnectAttempts : ℕ := 5

def reconnectExhaustedMsg : String := "Max reconnection attempts reached"

/-- `DerivAPI.handleReconnection`: on an unexpected close, if the attempt
counter is below the maximum, increment it and schedule `connect()` after
`2^attempts * 1000` ms; otherwise give up with the exhaustion error and
schedule nothing. Returns the delay and the new counter on success. -/
def handleReconnection (reconnectAttempts : ℕ) : Except String (ℕ × ℕ) :=
  if reconnectAttempts < maxReconnectAttempts then
    let attempts := reconnectAttempts + 1
    Except.ok (2 ^ attempts * 1000, attempts)
  else Except.error reconnectExhaustedMsg

/-- `connect()`'s `onopen` handler: reset the attempt counter to 0. -/
def onOpenReset (reconnectAttempts : ℕ) : ℕ := 0

/-- C10: reconnect attempt n (1 ≤ n ≤ 5, counter previously n-1) is
scheduled after 2^n seconds; a successful open resets the counter to 0; once
the counter reaches the maximum, reconnection surfaces the exhaustion error
and schedules no further attempt. -/
theorem reconnection_backoff_schedule :
    (∀ n : ℕ, 1 ≤ n → n ≤ maxReconnectAttempts →
      handleReconnection (n - 1) = Except.ok (2 ^ n * 1000, n)) ∧
    (∀ k : ℕ, onOpenReset k = 0) ∧
    (∀ a : ℕ, maxReconnectAttempts ≤ a →
      handleReconnection a = Except.error reconnectExhaustedMsg) := by
  refine ⟨?_, fun _ => rfl, ?_⟩
  · intro n h1 h5
    unfold handleReconnection maxReconnectAttempts at *
    rw [if_pos (by omega)]
    rw [Nat.sub_add_cancel h1]
  · intro a ha
    unfold handleReconnection maxReconnectAttempts at *
    rw [if_neg (by omega)]

/-- C10 witness: attempt 1 after 2000 ms from a fresh counter; reset; and
exhaustion at counter 5. -/
theorem reconnection_backoff_schedule_witness :
    handleReconnection 0 = Except.ok (2000, 1) ∧
      onOpenReset 7 = 0 ∧
      handleReconnection 5 = Except.error reconnectExhaustedMsg :=
  ⟨by
    have h := reconnection_backoff_schedule.1 1 (by decide) (by decide)
    simpa using h,
    reconnection_backoff_schedule.2.1 7,
    reconnection_backoff_schedule.2.2 5 (by decide)⟩

end TradingCore
